import Mathlib

/-!
Verification of the chain module of the nftnl-rs repository.

The file embeds `src/nftnl/src/chain.rs` shallowly in Lean. The native
`nftnl_chain` object (the libnftnl handle behind the raw pointer) is
modelled as a record of optional attributes keyed by the `NFTNL_CHAIN_*`
attribute constants, plus a numeric handle used by an explicit allocation
ledger (`Sys`) that tracks acquire/release of native resources. Stateful
FFI calls become explicit state passing. Machine integers are `Nat` with
`% 2 ^ 32` (resp. `% 2 ^ 16`) where the Rust code casts.

Collaborators of chain.rs that are part of the repository but not under
the provided sources (the `Table` type, `MsgType`, `ErrorKind`, and the
libnftnl helpers `nftnl_chain_alloc`, `nftnl_chain_set_str`,
`nftnl_chain_set_u32`, `nftnl_nlmsg_build_hdr`,
`nftnl_chain_nlmsg_build_payload`, `nftnl_chain_free`) are modelled from
the specification; each such definition carries a doc comment saying so.
-/

/-! ## Wire constants (protocol-defined integers, from the system headers) -/

/-- Netfilter hook number `NF_INET_PRE_ROUTING`. -/
def NF_INET_PRE_ROUTING : Nat := 0

/-- Netfilter hook number `NF_INET_LOCAL_IN`. -/
def NF_INET_LOCAL_IN : Nat := 1

/-- Netfilter hook number `NF_INET_FORWARD`. -/
def NF_INET_FORWARD : Nat := 2

/-- Netfilter hook number `NF_INET_LOCAL_OUT`. -/
def NF_INET_LOCAL_OUT : Nat := 3

/-- Netfilter hook number `NF_INET_POST_ROUTING`. -/
def NF_INET_POST_ROUTING : Nat := 4

/-- Netfilter verdict `NF_ACCEPT`. -/
def NF_ACCEPT : Nat := 1

/-- Netfilter verdict `NF_DROP`. -/
def NF_DROP : Nat := 0

/-- nf_tables message type `NFT_MSG_NEWCHAIN`. -/
def NFT_MSG_NEWCHAIN : Nat := 3

/-- nf_tables message type `NFT_MSG_DELCHAIN`. -/
def NFT_MSG_DELCHAIN : Nat := 5

/-- Netlink flag `NLM_F_ACK` (request an acknowledgment). -/
def NLM_F_ACK : Nat := 4

/-- libnftnl chain attribute key `NFTNL_CHAIN_NAME`. -/
def NFTNL_CHAIN_NAME : Nat := 0

/-- libnftnl chain attribute key `NFTNL_CHAIN_TABLE`. -/
def NFTNL_CHAIN_TABLE : Nat := 1

/-- libnftnl chain attribute key `NFTNL_CHAIN_HOOKNUM`. -/
def NFTNL_CHAIN_HOOKNUM : Nat := 2

/-- libnftnl chain attribute key `NFTNL_CHAIN_PRIO`. -/
def NFTNL_CHAIN_PRIO : Nat := 3

/-- libnftnl chain attribute key `NFTNL_CHAIN_POLICY`. -/
def NFTNL_CHAIN_POLICY : Nat := 4

/-! ## Enumerations from chain.rs -/

/-- The netfilter event hooks a chain can register for (`enum Hook`,
`repr(u16)` in chain.rs). -/
inductive Hook where
  | PreRouting
  | In
  | Forward
  | Out
  | PostRouting
deriving DecidableEq, Fintype

/-- Wire value of a `Hook` variant: the discriminants assigned in chain.rs
(`libc::NF_INET_* as u16`). -/
def hookToWire : Hook → Nat
  | .PreRouting => NF_INET_PRE_ROUTING
  | .In => NF_INET_LOCAL_IN
  | .Forward => NF_INET_FORWARD
  | .Out => NF_INET_LOCAL_OUT
  | .PostRouting => NF_INET_POST_ROUTING

/-- A chain policy (`enum Policy`, `repr(u32)` in chain.rs). -/
inductive Policy where
  | Accept
  | Drop
deriving DecidableEq, Fintype

/-- Wire value of a `Policy` variant: the discriminants assigned in chain.rs
(`libc::NF_ACCEPT as u32`, `libc::NF_DROP as u32`). -/
def policyToWire : Policy → Nat
  | .Accept => NF_ACCEPT
  | .Drop => NF_DROP

/-- Modelled from the spec: the `MsgType` operation enumeration of the crate
root (not under the provided sources): "Message Operation (enumeration):
Add, Delete". chain.rs matches on `MsgType::Add` and `MsgType::Del`. -/
inductive MsgType where
  | Add
  | Del
deriving DecidableEq

/-- Modelled from the spec: the error taxonomy of the crate root (not under
the provided sources); chain.rs only uses the `AllocationError` kind. -/
inductive ErrorKind where
  | AllocationError
deriving DecidableEq

/-- Modelled from the spec: the address-family enumeration `ProtoFamily` of
the crate root (not under the provided sources): "an enumerated value
identifying which protocol stack — e.g. IPv4, IPv6, bridge". Variants and
wire values follow the kernel `NFPROTO_*` constants. -/
inductive ProtoFamily where
  | Unspec
  | Inet
  | Ipv4
  | Arp
  | NetDev
  | Bridge
  | Ipv6
  | DecNet
deriving DecidableEq, Fintype

/-- Wire value of a `ProtoFamily` variant (the kernel `NFPROTO_*` numbers). -/
def protoFamilyToWire : ProtoFamily → Nat
  | .Unspec => 0
  | .Inet => 1
  | .Ipv4 => 2
  | .Arp => 3
  | .NetDev => 5
  | .Bridge => 7
  | .Ipv6 => 10
  | .DecNet => 12

/-! ## Strings

Rust's `CStr` guarantees a sequence of non-null bytes. A valid C string is
a list of byte values that are nonzero and below 256. -/

/-- A list of bytes is a valid C-string body: every byte is nonzero and
fits in one octet. -/
def isValidCStr (bs : List Nat) : Bool :=
  bs.all fun b => decide (0 < b) && decide (b < 256)

/-- Model of Rust's `&CStr`: the byte list together with the validity
guarantee the `CStr` type carries. -/
def CStr : Type := { bs : List Nat // isValidCStr bs = true }

instance : DecidableEq CStr := fun a b =>
  decidable_of_iff (a.val = b.val) Subtype.ext_iff.symm

instance {ε α : Type} [DecidableEq ε] [DecidableEq α] :
    DecidableEq (Except ε α)
  | .ok a, .ok b => decidable_of_iff (a = b) (by simp)
  | .error a, .error b => decidable_of_iff (a = b) (by simp)
  | .ok _, .error _ => isFalse (by simp)
  | .error _, .ok _ => isFalse (by simp)

/-- The Rust alias `pub type Priority = u32` from chain.rs; values are
natural numbers reduced modulo `2 ^ 32` wherever the code stores them. -/
abbrev Priority := Nat

/-! ## The native nftnl_chain object and the allocation ledger -/

/-- Model of the native `nftnl_chain` object behind the raw pointer: the
attributes chain.rs ever sets, each optional (a freshly allocated object
has none of them set), plus the numeric handle identifying the allocation. -/
structure NftnlChain where
  handle : Nat
  name : Option (List Nat) := none
  tableName : Option (List Nat) := none
  hooknum : Option Nat := none
  prio : Option Nat := none
  policy : Option Nat := none
deriving DecidableEq

/-- An acquire/release event on the native allocator. -/
inductive Event where
  | alloc (h : Nat)
  | free (h : Nat)
deriving DecidableEq

/-- The allocator state: the next fresh handle, the live handles, and the
log of acquire/release events. -/
structure Sys where
  next : Nat
  live : List Nat
  log : List Event
deriving DecidableEq

/-- Occurrences of one event in a log. -/
def countEv (log : List Event) (e : Event) : Nat :=
  (log.filter fun x => decide (x = e)).length

/-- Modelled from the spec: `nftnl_chain_alloc` (libnftnl, not under the
provided sources) acquires one native resource and returns a fresh object
with no attributes set, or fails (returns null) when the allocator cannot
acquire the resource; the `ok` flag is the allocator's outcome. -/
def nftnl_chain_alloc (s : Sys) (ok : Bool) : Option NftnlChain × Sys :=
  if ok then
    (some { handle := s.next },
     { next := s.next + 1, live := s.next :: s.live, log := s.log ++ [.alloc s.next] })
  else (none, s)

/-- Modelled from the spec: `nftnl_chain_free` (libnftnl, not under the
provided sources) releases the native resource identified by the handle. -/
def nftnl_chain_free (s : Sys) (h : Nat) : Sys :=
  { s with live := s.live.erase h, log := s.log ++ [.free h] }

/-- Modelled from the spec: `nftnl_chain_set_str` (libnftnl, not under the
provided sources) stores a string attribute under the given attribute key. -/
def nftnl_chain_set_str (c : NftnlChain) (attr : Nat) (v : List Nat) : NftnlChain :=
  if attr = NFTNL_CHAIN_NAME then { c with name := some v }
  else if attr = NFTNL_CHAIN_TABLE then { c with tableName := some v }
  else c

/-- Modelled from the spec: `nftnl_chain_set_u32` (libnftnl, not under the
provided sources) stores a 32-bit numeric attribute under the given
attribute key. -/
def nftnl_chain_set_u32 (c : NftnlChain) (attr : Nat) (v : Nat) : NftnlChain :=
  if attr = NFTNL_CHAIN_HOOKNUM then { c with hooknum := some (v % 2 ^ 32) }
  else if attr = NFTNL_CHAIN_PRIO then { c with prio := some (v % 2 ^ 32) }
  else if attr = NFTNL_CHAIN_POLICY then { c with policy := some (v % 2 ^ 32) }
  else c

/-! ## Table -/

/-- Modelled from the spec: the `Table` object (not under the provided
sources) "owns a family (address family) and a name", both immutable after
creation; chain.rs reads them through `get_name` and `get_family`. -/
structure Table where
  family : ProtoFamily
  name : CStr
deriving DecidableEq

/-- Accessor `Table::get_name`, modelled from the spec. -/
def Table.get_name (t : Table) : CStr := t.name

/-- Accessor `Table::get_family`, modelled from the spec. -/
def Table.get_family (t : Table) : ProtoFamily := t.family

/-! ## Chain -/

/-- The `Chain` struct of chain.rs: the raw native object plus the borrowed
reference to the owning `Table`. -/
structure Chain where
  chain : NftnlChain
  table : Table
deriving DecidableEq

/-- `Chain::new` from chain.rs: allocate the native object (failing with
`ErrorKind::AllocationError` when the allocation returns null), then copy
the table's name and the chain's own name into the native object. The `ok`
flag is the allocator's outcome, threaded through the ledger `s`. -/
def Chain.new (name : CStr) (table : Table) (s : Sys) (ok : Bool) :
    Except ErrorKind Chain × Sys :=
  match nftnl_chain_alloc s ok with
  | (none, s1) => (.error .AllocationError, s1)
  | (some chain, s1) =>
      let chain := nftnl_chain_set_str chain NFTNL_CHAIN_TABLE table.get_name.val
      let chain := nftnl_chain_set_str chain NFTNL_CHAIN_NAME name.val
      (.ok { chain := chain, table := table }, s1)

/-- `Chain::set_hook` from chain.rs: store the hook's wire value (cast to
u32) under `NFTNL_CHAIN_HOOKNUM` and the priority under `NFTNL_CHAIN_PRIO`. -/
def Chain.set_hook (c : Chain) (hook : Hook) (priority : Priority) : Chain :=
  let c1 := nftnl_chain_set_u32 c.chain NFTNL_CHAIN_HOOKNUM (hookToWire hook)
  { c with chain := nftnl_chain_set_u32 c1 NFTNL_CHAIN_PRIO priority }

/-- `Chain::set_policy` from chain.rs: store the policy's wire value under
`NFTNL_CHAIN_POLICY`. -/
def Chain.set_policy (c : Chain) (policy : Policy) : Chain :=
  let c1 := nftnl_chain_set_u32 c.chain NFTNL_CHAIN_POLICY (policyToWire policy)
  { c with chain := c1 }

/-- `Chain::get_name` from chain.rs: read the `NFTNL_CHAIN_NAME` attribute
of the native object (always set by `Chain::new`). -/
def Chain.get_name (c : Chain) : List Nat := c.chain.name.getD []

/-- `Chain::get_table` from chain.rs: return the borrowed table reference. -/
def Chain.get_table (c : Chain) : Table := c.table

/-! ## Message encoding -/

/-- Modelled from the spec: the fixed-layout netlink header built by
`nftnl_nlmsg_build_hdr` — the wire message-type constant, the address
family, the flag word, and the sequence number. -/
structure Nlmsghdr where
  msgType : Nat
  family : Nat
  flags : Nat
  seq : Nat
deriving DecidableEq

/-- A typed attribute value in the payload: a string field or a 32-bit
numeric field. -/
inductive AttrVal where
  | str (bytes : List Nat)
  | u32 (v : Nat)
deriving DecidableEq

/-- A typed, tagged payload field. -/
structure Attr where
  tag : Nat
  val : AttrVal
deriving DecidableEq

/-- A complete netlink message: header followed by the payload fields. -/
structure Message where
  header : Nlmsghdr
  payload : List Attr
deriving DecidableEq

/-- Modelled from the spec: `nftnl_nlmsg_build_hdr` (libnftnl, not under the
provided sources) stamps its arguments into a fixed-layout header; the
message type, family and flags are 16-bit fields, the sequence number a
32-bit field (chain.rs casts the first two with `as u16`). -/
def nftnl_nlmsg_build_hdr (msgType family flags seq : Nat) : Nlmsghdr :=
  { msgType := msgType % 2 ^ 16
    family := family % 2 ^ 16
    flags := flags % 2 ^ 16
    seq := seq % 2 ^ 32 }

/-- The payload field for one optional attribute: absent attribute, no
field; present attribute, exactly one field carrying it. -/
def optAttr (tag : Nat) : Option AttrVal → List Attr
  | none => []
  | some v => [{ tag := tag, val := v }]

/-- Modelled from the spec: `nftnl_chain_nlmsg_build_payload` (libnftnl, not
under the provided sources) emits "the object's attributes encoded as a
sequence of typed, length-prefixed fields (table name, ..., chain name,
hook number, priority, policy)", one field per attribute that is set, and
does not mutate the chain object (the state-passing result returns it
unchanged). -/
def nftnl_chain_nlmsg_build_payload (c : NftnlChain) : List Attr × NftnlChain :=
  (optAttr NFTNL_CHAIN_TABLE (c.tableName.map .str)
     ++ optAttr NFTNL_CHAIN_NAME (c.name.map .str)
     ++ optAttr NFTNL_CHAIN_HOOKNUM (c.hooknum.map .u32)
     ++ optAttr NFTNL_CHAIN_PRIO (c.prio.map .u32)
     ++ optAttr NFTNL_CHAIN_POLICY (c.policy.map .u32),
   c)

/-- The raw message type chain.rs selects per operation:
`NFT_MSG_NEWCHAIN` for `Add`, `NFT_MSG_DELCHAIN` for `Del`. -/
def chainRawMsgType : MsgType → Nat
  | .Add => NFT_MSG_NEWCHAIN
  | .Del => NFT_MSG_DELCHAIN

/-- `NlMsg::write` for `Chain` from chain.rs: build the header from the
operation's message type, the owning table's family (read through the
borrowed table reference), the `NLM_F_ACK` flag and the sequence number,
then build the payload from the native chain object. The state-passing
second component is the chain after the call. -/
def Chain.write (c : Chain) (seq : Nat) (msgType : MsgType) : Message × Chain :=
  let rawMsgType := chainRawMsgType msgType
  let header := nftnl_nlmsg_build_hdr rawMsgType
    (protoFamilyToWire c.table.get_family) NLM_F_ACK seq
  let pc := nftnl_chain_nlmsg_build_payload c.chain
  ({ header := header, payload := pc.1 }, { c with chain := pc.2 })

/-- `Drop::drop` for `Chain` from chain.rs: free the native chain object.
The table field is not read. -/
def Chain.dropRaw (c : Chain) (s : Sys) : Sys :=
  nftnl_chain_free s c.chain.handle

/-- The drop glue the Rust compiler wraps around `Drop::drop`: the
destructor body runs only if the value has not been dropped yet, so
redundant invocations of the destruction logic are no-ops. Returns the
updated drop flag and ledger. -/
def Chain.dropGlue (c : Chain) (dropped : Bool) (s : Sys) : Bool × Sys :=
  if dropped then (true, s) else (true, Chain.dropRaw c s)

/-! ## Byte-level serialization

Used to state byte-identity of encoded messages: a fixed injective
little-endian rendering of the header and the length-prefixed fields. -/

/-- Two little-endian bytes of a 16-bit value. -/
def u16le (n : Nat) : List Nat := [n % 256, n / 256 % 256]

/-- Four little-endian bytes of a 32-bit value. -/
def u32le (n : Nat) : List Nat :=
  [n % 256, n / 256 % 256, n / 2 ^ 16 % 256, n / 2 ^ 24 % 256]

/-- The value bytes of one payload field. -/
def attrValBytes : AttrVal → List Nat
  | .str bs => bs ++ [0]
  | .u32 v => u32le v

/-- One length-prefixed payload field: length, tag, value bytes. -/
def serAttr (a : Attr) : List Nat :=
  u16le (attrValBytes a.val).length ++ u16le a.tag ++ attrValBytes a.val

/-- The serialized message: header fields then the payload fields. -/
def serMessage (m : Message) : List Nat :=
  u16le m.header.msgType ++ u16le m.header.family ++ u16le m.header.flags
    ++ u32le m.header.seq ++ (m.payload.map serAttr).flatten

/-- Fields of a payload carrying a given tag. -/
def fieldsWithTag (payload : List Attr) (tag : Nat) : List Attr :=
  payload.filter fun a => decide (a.tag = tag)

/-! ## Derived helpers and concrete sample objects -/

/-- The payload the encoder emits for a chain (first component of the
payload build). -/
def chainPayload (c : Chain) : List Attr :=
  (nftnl_chain_nlmsg_build_payload c.chain).1

/-- Apply an optional recorded `set_hook` call. -/
def applyHookCall (c : Chain) : Option (Hook × Priority) → Chain
  | none => c
  | some hp => c.set_hook hp.1 hp.2

/-- Apply an optional recorded `set_policy` call. -/
def applyPolicyCall (c : Chain) : Option Policy → Chain
  | none => c
  | some p => c.set_policy p

/-- The byte list of the C string "filter". -/
def nameF : CStr := ⟨[102, 105, 108, 116, 101, 114], by decide⟩

/-- The byte list of the C string "input". -/
def nameI : CStr := ⟨[105, 110, 112, 117, 116], by decide⟩

/-- A sample IPv4 table named "filter". -/
def tbl4 : Table := { family := .Ipv4, name := nameF }

/-- A sample IPv6 table named "filter". -/
def tbl6 : Table := { family := .Ipv6, name := nameF }

/-- The initial allocator state. -/
def sys0 : Sys := { next := 0, live := [], log := [] }

/-- The allocator state after one successful chain allocation from `sys0`. -/
def sys1 : Sys := { next := 1, live := [0], log := [.alloc 0] }

/-- The chain "input" constructed in `tbl4` from the initial state. -/
def chainI4 : Chain :=
  { chain := { handle := 0, name := some nameI.val, tableName := some nameF.val }
    table := tbl4 }

/-- The chain "input" constructed in `tbl6` from the initial state. -/
def chainI6 : Chain :=
  { chain := { handle := 0, name := some nameI.val, tableName := some nameF.val }
    table := tbl6 }

/-! ## Theorems -/

/-- C7: the `Hook` enumeration has exactly five variants (PreRouting, In,
Forward, Out, PostRouting), each equal to its fixed protocol-defined
netfilter hook integer, and the `Policy` enumeration has exactly two
variants (Accept, Drop), each equal to its fixed protocol-defined
integer. -/
theorem hook_policy_wire_constants :
    Fintype.card Hook = 5
    ∧ hookToWire .PreRouting = 0 ∧ hookToWire .In = 1 ∧ hookToWire .Forward = 2
    ∧ hookToWire .Out = 3 ∧ hookToWire .PostRouting = 4
    ∧ Fintype.card Policy = 2
    ∧ policyToWire .Accept = 1 ∧ policyToWire .Drop = 0 := by
  decide

/-- C10: the priority accepted by `set_hook` is an unsigned 32-bit
integer: the value stored is the caller's value reduced modulo `2 ^ 32`
(its two's-complement unsigned encoding) and always lies in
`[0, 2 ^ 32)`. -/
theorem chain_priority_u32_range (c : Chain) (hook : Hook) (p : Priority) :
    (Chain.set_hook c hook p).chain.prio = some (p % 2 ^ 32)
    ∧ p % 2 ^ 32 < 2 ^ 32 := by
  constructor
  · simp [Chain.set_hook, nftnl_chain_set_u32, NFTNL_CHAIN_HOOKNUM,
      NFTNL_CHAIN_PRIO, NFTNL_CHAIN_POLICY]
  · exact Nat.mod_lt _ (by norm_num)

/-- C4: `Chain::new` only accepts names carrying the C-string validity
guarantee, returns an `AllocationError` exactly when the native allocation
fails, and on that error path returns no chain and leaves the allocation
ledger untouched (no native resource remains acquired). -/
theorem chain_new_validation_and_alloc_error (name : CStr) (table : Table)
    (s : Sys) (ok : Bool) :
    isValidCStr name.val = true
    ∧ ((Chain.new name table s ok).1 = .error .AllocationError ↔ ok = false)
    ∧ Chain.new name table s false = (.error .AllocationError, s) := by
  refine ⟨name.property, ?_, by simp [Chain.new, nftnl_chain_alloc]⟩
  cases ok <;> simp [Chain.new, nftnl_chain_alloc]

/-- C6: encoding is deterministic and effect-free on the chain: writing
twice with the same sequence number and operation yields byte-identical
serialized messages (indeed equal messages), and a write returns the chain
unchanged. -/
theorem chain_write_deterministic_pure (c : Chain) (seq : Nat) (t : MsgType) :
    serMessage ((Chain.write ((Chain.write c seq t).2) seq t).1)
      = serMessage ((Chain.write c seq t).1)
    ∧ (Chain.write ((Chain.write c seq t).2) seq t).1 = (Chain.write c seq t).1
    ∧ (Chain.write c seq t).2 = c :=
  ⟨rfl, rfl, rfl⟩

/-- Every protocol family wire value fits in 16 bits (so the `as u16` cast
in the header build is lossless). -/
theorem protoFamilyToWire_lt (f : ProtoFamily) : protoFamilyToWire f < 2 ^ 16 := by
  cases f <;> norm_num [protoFamilyToWire]

/-- C1: for every chain, sequence number and operation, `write` builds a
header whose message type is `NFT_MSG_NEWCHAIN` for `Add` and
`NFT_MSG_DELCHAIN` for `Del`, whose family field equals the owning table's
family wire value, whose flag word has the `NLM_F_ACK` bit set, and which
carries the supplied sequence number unmodified. -/
theorem chain_write_header_fields (c : Chain) (seq : Nat) (t : MsgType)
    (hseq : seq < 2 ^ 32) :
    (Chain.write c seq .Add).1.header.msgType = NFT_MSG_NEWCHAIN
    ∧ (Chain.write c seq .Del).1.header.msgType = NFT_MSG_DELCHAIN
    ∧ (Chain.write c seq t).1.header.family
        = protoFamilyToWire c.table.get_family
    ∧ (Chain.write c seq t).1.header.flags &&& NLM_F_ACK = NLM_F_ACK
    ∧ (Chain.write c seq t).1.header.seq = seq := by
  refine ⟨?_, ?_, ?_, ?_, ?_⟩
  · simp [Chain.write, nftnl_nlmsg_build_hdr, chainRawMsgType, NFT_MSG_NEWCHAIN]
  · simp [Chain.write, nftnl_nlmsg_build_hdr, chainRawMsgType, NFT_MSG_DELCHAIN]
  · simpa [Chain.write, nftnl_nlmsg_build_hdr] using
      Nat.mod_eq_of_lt (protoFamilyToWire_lt c.table.get_family)
  · simp [Chain.write, nftnl_nlmsg_build_hdr, NLM_F_ACK]
  · simpa [Chain.write, nftnl_nlmsg_build_hdr] using Nat.mod_eq_of_lt hseq

/-- Witness for C1 at a concrete chain, sequence number 42 and both
operations. -/
theorem chain_write_header_fields_witness :
    42 < 2 ^ 32
    ∧ ((Chain.write chainI4 42 .Add).1.header.msgType = NFT_MSG_NEWCHAIN
       ∧ (Chain.write chainI4 42 .Del).1.header.msgType = NFT_MSG_DELCHAIN
       ∧ (Chain.write chainI4 42 .Add).1.header.family
           = protoFamilyToWire chainI4.table.get_family
       ∧ (Chain.write chainI4 42 .Add).1.header.flags &&& NLM_F_ACK = NLM_F_ACK
       ∧ (Chain.write chainI4 42 .Add).1.header.seq = 42) :=
  ⟨by decide, chain_write_header_fields chainI4 42 .Add (by decide)⟩

/-- Unfolding lemma: `set_hook` only updates the hook number and priority
attributes of the native object. -/
theorem set_hook_chain_eq (c : Chain) (hook : Hook) (p : Priority) :
    (Chain.set_hook c hook p).chain
      = { c.chain with hooknum := some (hookToWire hook % 2 ^ 32), prio := some (p % 2 ^ 32) } := rfl

/-- C5: `set_hook` is an unconditional total mutator: for every chain,
hook and in-range priority it stores the hook's wire value and the
priority verbatim (making the chain a base chain) and changes nothing
else. -/
theorem chain_set_hook_unconditional (c : Chain) (hook : Hook) (p : Priority)
    (hp : p < 2 ^ 32) :
    (Chain.set_hook c hook p).chain.hooknum = some (hookToWire hook)
    ∧ (Chain.set_hook c hook p).chain.prio = some p
    ∧ (Chain.set_hook c hook p).chain.name = c.chain.name
    ∧ (Chain.set_hook c hook p).chain.tableName = c.chain.tableName
    ∧ (Chain.set_hook c hook p).chain.policy = c.chain.policy
    ∧ (Chain.set_hook c hook p).table = c.table := by
  have hw : hookToWire hook % 2 ^ 32 = hookToWire hook := by
    cases hook <;> decide
  have hp2 : p % 2 ^ 32 = p := Nat.mod_eq_of_lt hp
  refine ⟨?_, ?_, ?_, ?_, ?_, ?_⟩
  · rw [set_hook_chain_eq]
    exact congrArg some hw
  · rw [set_hook_chain_eq]
    exact congrArg some hp2
  · rw [set_hook_chain_eq]
  · rw [set_hook_chain_eq]
  · rw [set_hook_chain_eq]
  · rfl

/-- Witness for C5 at a concrete chain, the `In` hook and priority 7. -/
theorem chain_set_hook_unconditional_witness :
    7 < 2 ^ 32
    ∧ ((Chain.set_hook chainI4 .In 7).chain.hooknum = some (hookToWire .In)
       ∧ (Chain.set_hook chainI4 .In 7).chain.prio = some 7
       ∧ (Chain.set_hook chainI4 .In 7).chain.name = chainI4.chain.name
       ∧ (Chain.set_hook chainI4 .In 7).chain.tableName = chainI4.chain.tableName
       ∧ (Chain.set_hook chainI4 .In 7).chain.policy = chainI4.chain.policy
       ∧ (Chain.set_hook chainI4 .In 7).table = chainI4.table) :=
  ⟨by decide, chain_set_hook_unconditional chainI4 .In 7 (by decide)⟩

/-- C9: for every chain successfully constructed from a table,
`get_table` returns the originating table, in particular a table equal to
it by name and family. -/
theorem chain_get_table_roundtrip (name : CStr) (table : Table) (s s1 : Sys)
    (c : Chain) (h : Chain.new name table s true = (.ok c, s1)) :
    c.get_table = table
    ∧ c.get_table.name = table.name
    ∧ c.get_table.family = table.family := by
  simp only [Chain.new, nftnl_chain_alloc, if_true, Prod.mk.injEq,
    Except.ok.injEq] at h
  obtain ⟨hc, -⟩ := h
  subst hc
  exact ⟨rfl, rfl, rfl⟩

/-- Witness for C9: the concrete chain "input" built in the IPv4 "filter"
table returns that table. -/
theorem chain_get_table_roundtrip_witness :
    Chain.new nameI tbl4 sys0 true = (.ok chainI4, sys1)
    ∧ (chainI4.get_table = tbl4
       ∧ chainI4.get_table.name = tbl4.name
       ∧ chainI4.get_table.family = tbl4.family) :=
  ⟨by decide, chain_get_table_roundtrip nameI tbl4 sys0 sys1 chainI4 (by decide)⟩

/-- C2 counterexample: two tables differing only in family yield, from the
same allocator state, chains whose native objects are identical (so the
family was not copied into the native object at construction), yet whose
encoded headers differ in the family field (so encode re-derives the
family dynamically from the borrowed Table reference). This refutes the
claim that the family is copied at construction and not re-derived at
encode time. -/
theorem chain_family_not_copied_counterexample :
    (Chain.new nameI tbl4 sys0 true).1 = .ok chainI4
    ∧ (Chain.new nameI tbl6 sys0 true).1 = .ok chainI6
    ∧ chainI4.chain = chainI6.chain
    ∧ (Chain.write chainI4 1 .Add).1.header.family
        ≠ (Chain.write chainI6 1 .Add).1.header.family := by
  decide

/-- C2 amended: for every successfully constructed chain, the table's name
is copied into the chain's own native object at construction time, and the
table's family is not copied — a later encode re-derives it dynamically
from the borrowed Table reference. -/
theorem chain_new_copies_table_name (name : CStr) (table : Table)
    (s s1 : Sys) (c : Chain) (h : Chain.new name table s true = (.ok c, s1)) :
    c.chain.tableName = some table.get_name.val
    ∧ c.chain.name = some name.val
    ∧ ∀ seq t, (Chain.write c seq t).1.header.family
        = protoFamilyToWire c.table.get_family % 2 ^ 16 := by
  simp only [Chain.new, nftnl_chain_alloc, if_true, Prod.mk.injEq,
    Except.ok.injEq] at h
  obtain ⟨hc, -⟩ := h
  subst hc
  exact ⟨rfl, rfl, fun seq t => rfl⟩

/-- Witness for C2's amended statement at the concrete chain "input" in the
IPv4 "filter" table. -/
theorem chain_new_copies_table_name_witness :
    Chain.new nameI tbl4 sys0 true = (.ok chainI4, sys1)
    ∧ (chainI4.chain.tableName = some tbl4.get_name.val
       ∧ chainI4.chain.name = some nameI.val
       ∧ ∀ seq t, (Chain.write chainI4 seq t).1.header.family
           = protoFamilyToWire chainI4.table.get_family % 2 ^ 16) :=
  ⟨by decide, chain_new_copies_table_name nameI tbl4 sys0 sys1 chainI4 (by decide)⟩

/-- Helper: every hook wire value is below `2 ^ 32`, so the `as u32` cast
stores it unchanged. -/
theorem hookToWire_mod (hk : Hook) : hookToWire hk % 2 ^ 32 = hookToWire hk := by
  cases hk <;> decide

/-- Helper: every policy wire value is below `2 ^ 32`, so the `as u32` cast
stores it unchanged. -/
theorem policyToWire_mod (pl : Policy) : policyToWire pl % 2 ^ 32 = policyToWire pl := by
  cases pl <;> decide

/-- Helper: every hook wire value is below `2 ^ 32`. -/
theorem hookToWire_lt (hk : Hook) : hookToWire hk < 2 ^ 32 := by
  cases hk <;> decide

/-- Helper: every policy wire value is below `2 ^ 32`. -/
theorem policyToWire_lt (pl : Policy) : policyToWire pl < 2 ^ 32 := by
  cases pl <;> decide

/-- C3: for a chain constructed by `Chain::new` and then configured by an
optional `set_hook` call and an optional `set_policy` call, the encoded
payload contains a hook-number field and a priority field exactly when
`set_hook` was called (one of each, carrying the hook's wire value and the
supplied priority), and a policy field exactly when `set_policy` was
called (one, carrying the policy's wire value), each independently of the
other call. -/
theorem chain_payload_conditional_fields (name : CStr) (table : Table)
    (s s1 : Sys) (c0 : Chain)
    (hookCall : Option (Hook × Priority)) (polCall : Option Policy)
    (hnew : Chain.new name table s true = (.ok c0, s1))
    (hp : match hookCall with | some x => x.2 < 2 ^ 32 | none => True) :
    (fieldsWithTag (chainPayload (applyPolicyCall (applyHookCall c0 hookCall) polCall))
        NFTNL_CHAIN_HOOKNUM
      = match hookCall with
        | none => []
        | some x => [{ tag := NFTNL_CHAIN_HOOKNUM, val := .u32 (hookToWire x.1) }])
    ∧ (fieldsWithTag (chainPayload (applyPolicyCall (applyHookCall c0 hookCall) polCall))
        NFTNL_CHAIN_PRIO
      = match hookCall with
        | none => []
        | some x => [{ tag := NFTNL_CHAIN_PRIO, val := .u32 x.2 }])
    ∧ (fieldsWithTag (chainPayload (applyPolicyCall (applyHookCall c0 hookCall) polCall))
        NFTNL_CHAIN_POLICY
      = match polCall with
        | none => []
        | some pol => [{ tag := NFTNL_CHAIN_POLICY, val := .u32 (policyToWire pol) }]) := by
  simp only [Chain.new, nftnl_chain_alloc, if_true, Prod.mk.injEq,
    Except.ok.injEq] at hnew
  obtain ⟨hc, -⟩ := hnew
  subst hc
  rcases hookCall with - | ⟨hk, p⟩ <;> rcases polCall with - | pol <;>
    [skip; skip; (have hp2 : p % 2 ^ 32 = p := Nat.mod_eq_of_lt hp);
     (have hp2 : p % 2 ^ 32 = p := Nat.mod_eq_of_lt hp)] <;>
    simp [chainPayload, applyHookCall, applyPolicyCall, Chain.set_hook,
      Chain.set_policy, nftnl_chain_set_u32, nftnl_chain_set_str,
      nftnl_chain_nlmsg_build_payload, fieldsWithTag, optAttr,
      NFTNL_CHAIN_NAME, NFTNL_CHAIN_TABLE, NFTNL_CHAIN_HOOKNUM,
      NFTNL_CHAIN_PRIO, NFTNL_CHAIN_POLICY, hookToWire_mod, policyToWire_mod,
      List.filter_append] <;>
    simp_all [hookToWire_lt, policyToWire_lt] <;>
    first
      | exact policyToWire_lt pol
      | exact hookToWire_lt hk
      | exact ⟨hookToWire_lt hk, policyToWire_lt pol⟩

/-- Witness for C3: the chain "input" with `set_hook(In, 0)` and
`set_policy(Accept)` encodes exactly one hook-number, one priority and one
policy field with the expected values. -/
theorem chain_payload_conditional_fields_witness :
    (Chain.new nameI tbl4 sys0 true = (.ok chainI4, sys1)
      ∧ (0 : Priority) < 2 ^ 32)
    ∧ (fieldsWithTag (chainPayload (applyPolicyCall
          (applyHookCall chainI4 (some (.In, 0))) (some .Accept))) NFTNL_CHAIN_HOOKNUM
        = [{ tag := NFTNL_CHAIN_HOOKNUM, val := .u32 (hookToWire .In) }]
      ∧ fieldsWithTag (chainPayload (applyPolicyCall
          (applyHookCall chainI4 (some (.In, 0))) (some .Accept))) NFTNL_CHAIN_PRIO
        = [{ tag := NFTNL_CHAIN_PRIO, val := .u32 0 }]
      ∧ fieldsWithTag (chainPayload (applyPolicyCall
          (applyHookCall chainI4 (some (.In, 0))) (some .Accept))) NFTNL_CHAIN_POLICY
        = [{ tag := NFTNL_CHAIN_POLICY, val := .u32 (policyToWire .Accept) }]) :=
  ⟨⟨by decide, by decide⟩,
   chain_payload_conditional_fields nameI tbl4 sys0 sys1 chainI4
     (some (.In, 0)) (some .Accept) (by decide) (by decide)⟩

/-- Helper: event counting distributes over log concatenation. -/
theorem countEv_append (l1 l2 : List Event) (e : Event) :
    countEv (l1 ++ l2) e = countEv l1 e + countEv l2 e := by
  simp [countEv, List.filter_append]

/-- Helper: an allocation event is never counted as a release event. -/
theorem countEv_alloc_free (n m : Nat) :
    countEv [.alloc n] (.free m) = 0 := rfl

/-- Helper: a single release event of a handle counts once for that
handle. -/
theorem countEv_free_self (n : Nat) :
    countEv [.free n] (.free n) = 1 := by
  simp [countEv]

/-- C8: destroying a chain constructed by `Chain::new` releases its native
resource exactly once: even when the destruction logic is invoked a second
time, the event log gains exactly one release of the chain's handle, the
set of live handles returns to its pre-construction value, and the
destructor is insensitive to the table reference (it reads no Table
state). -/
theorem chain_drop_exactly_once (name : CStr) (table t2 : Table)
    (s s1 : Sys) (c : Chain)
    (h : Chain.new name table s true = (.ok c, s1)) :
    countEv ((Chain.dropGlue c (Chain.dropGlue c false s1).1
        (Chain.dropGlue c false s1).2).2).log (.free c.chain.handle)
      = countEv s.log (.free c.chain.handle) + 1
    ∧ ((Chain.dropGlue c (Chain.dropGlue c false s1).1
        (Chain.dropGlue c false s1).2).2).live = s.live
    ∧ ∀ s4, Chain.dropRaw { c with table := t2 } s4 = Chain.dropRaw c s4 := by
  simp only [Chain.new, nftnl_chain_alloc, if_true, Prod.mk.injEq,
    Except.ok.injEq] at h
  obtain ⟨hc, hs⟩ := h
  subst hc
  subst hs
  refine ⟨?_, ?_, fun s4 => rfl⟩
  · show countEv ((s.log ++ [.alloc s.next]) ++ [.free s.next]) (.free s.next)
        = countEv s.log (.free s.next) + 1
    rw [countEv_append, countEv_append, countEv_alloc_free, countEv_free_self]
  · show (s.next :: s.live).erase s.next = s.live
    simp

/-- Witness for C8 at the concrete chain "input" in the IPv4 "filter"
table, with redundant destruction and an unrelated table reference. -/
theorem chain_drop_exactly_once_witness :
    Chain.new nameI tbl4 sys0 true = (.ok chainI4, sys1)
    ∧ countEv ((Chain.dropGlue chainI4 (Chain.dropGlue chainI4 false sys1).1
        (Chain.dropGlue chainI4 false sys1).2).2).log (.free chainI4.chain.handle)
      = countEv sys0.log (.free chainI4.chain.handle) + 1
    ∧ ((Chain.dropGlue chainI4 (Chain.dropGlue chainI4 false sys1).1
        (Chain.dropGlue chainI4 false sys1).2).2).live = sys0.live
    ∧ Chain.dropRaw { chainI4 with table := tbl6 } sys1
        = Chain.dropRaw chainI4 sys1 :=
  ⟨by decide,
   (chain_drop_exactly_once nameI tbl4 tbl6 sys0 sys1 chainI4 (by decide)).1,
   (chain_drop_exactly_once nameI tbl4 tbl6 sys0 sys1 chainI4 (by decide)).2.1,
   (chain_drop_exactly_once nameI tbl4 tbl6 sys0 sys1 chainI4 (by decide)).2.2 sys1⟩
